import Mathlib

/-
Verification development for the CraftX attestation stack.

This file gives a shallow embedding of the two Solidity attestation
contracts of the repository and of the Merkle batch/verify layer described
in the design document, and proves the stated properties about them.

Modelling conventions:
  * `bytes32` and `address` values are modelled as `Nat`;
    `address(0)` and `bytes32(0)` are `0`.
  * `uint32` / `uint64` / `uint256` fields are `Nat`; where the source
    truncates (`uint64(block.timestamp)`) we take `% 2 ^ 64` explicitly.
  * A reverting external call is an `Except.error`: the caller's state is
    unchanged.  The `...Run` wrappers package the EVM call semantics:
    on revert the pre-state is kept and no event is emitted.
  * Solidity mappings are total functions with the zero value as default,
    matching EVM storage semantics.
-/

namespace CraftXChain

/-- The `Record` struct of `craftx-stack/contracts/CraftXAttestation.sol`:
`modelHash`, `containerHash`, a `uint64` timestamp and a `uri` string. -/
structure Record where
  modelHash : Nat
  containerHash : Nat
  timestamp : Nat
  uri : String
deriving DecidableEq

/-- The EVM default value of a `Record` slot: all fields zero / empty. -/
def Record.empty : Record :=
  { modelHash := 0, containerHash := 0, timestamp := 0, uri := "" }

/-- Does any field of the record carry the value `w` (an address rendered
either as a number or as its decimal string)?  Used to check whether a
record can possibly contain a writer identity. -/
def Record.mentions (r : Record) (w : Nat) : Bool :=
  decide (r.modelHash = w) || decide (r.containerHash = w) ||
    decide (r.timestamp = w) || decide (r.uri = toString w)

/-- The events declared by the contract (including the inherited
`OwnershipTransferred` of `Ownable`). -/
inductive Event where
  | OwnershipTransferred (previousOwner newOwner : Nat)
  | PublisherSet (fingerprintHash publisher : Nat)
  | Attested (fingerprintHash date modelHash containerHash timestamp : Nat)
      (uri : String)
deriving DecidableEq

/-- Does any field of an event carry the value `w` (as a number or as its
decimal string)? -/
def Event.mentions : Event → Nat → Bool
  | .OwnershipTransferred p n, w => decide (p = w) || decide (n = w)
  | .PublisherSet f p, w => decide (f = w) || decide (p = w)
  | .Attested f d m c t u, w =>
      decide (f = w) || decide (d = w) || decide (m = w) || decide (c = w) ||
        decide (t = w) || decide (u = toString w)

/-- Storage of `CraftXAttestation is Ownable`:
`owner`, the nested mapping `_records : bytes32 => uint32 => Record`,
and `publisherFor : bytes32 => address`. -/
structure AttestationState where
  owner : Nat
  records : Nat → Nat → Record
  publisherFor : Nat → Nat

/-- State right after deployment by `deployer`: the constructor sets
`owner = msg.sender`; all mappings hold their zero values. -/
def initialState (deployer : Nat) : AttestationState :=
  { owner := deployer
  , records := fun _ _ => Record.empty
  , publisherFor := fun _ => 0 }

/-- `recordExists`: `_records[fingerprintHash][date].timestamp != 0`. -/
def recordExists (s : AttestationState) (fingerprintHash date : Nat) : Bool :=
  decide ((s.records fingerprintHash date).timestamp ≠ 0)

/-- `getRecord`: read-only view returning `_records[fingerprintHash][date]`. -/
def getRecord (s : AttestationState) (fingerprintHash date : Nat) : Record :=
  s.records fingerprintHash date

/-- `setPublisher` (modifier `onlyOwner`): sets
`publisherFor[fingerprintHash]` and emits `PublisherSet`. -/
def setPublisher (s : AttestationState) (sender fingerprintHash publisher : Nat) :
    Except String (AttestationState × List Event) :=
  if s.owner ≠ sender then Except.error ("Not owner")
  else Except.ok
    ({ s with publisherFor := fun f =>
        if f = fingerprintHash then publisher else s.publisherFor f },
     [Event.PublisherSet fingerprintHash publisher])

/-- `transferOwnership` (modifier `onlyOwner`): requires a nonzero new
owner, emits `OwnershipTransferred`, then updates `owner`. -/
def transferOwnership (s : AttestationState) (sender newOwner : Nat) :
    Except String (AttestationState × List Event) :=
  if s.owner ≠ sender then Except.error ("Not owner")
  else if newOwner = 0 then Except.error ("Zero address")
  else Except.ok
    ({ s with owner := newOwner },
     [Event.OwnershipTransferred s.owner newOwner])

/-- `attest`: requires `publisherFor[fingerprintHash] == msg.sender`, a
nonzero `modelHash`, and `!recordExists`; then stores the record with
`uint64(block.timestamp)` and emits `Attested`. -/
def attest (s : AttestationState) (sender blockTimestamp : Nat)
    (fingerprintHash date modelHash containerHash : Nat) (uri : String) :
    Except String (AttestationState × List Event) :=
  if s.publisherFor fingerprintHash ≠ sender then
    Except.error ("Unauthorized")
  else if modelHash = 0 then
    Except.error ("modelHash required")
  else if recordExists s fingerprintHash date then
    Except.error ("Already attested")
  else
    let ts := blockTimestamp % 2 ^ 64
    let r : Record :=
      { modelHash := modelHash, containerHash := containerHash
      , timestamp := ts, uri := uri }
    Except.ok
      ({ s with records := fun f d =>
          if f = fingerprintHash ∧ d = date then r else s.records f d },
       [Event.Attested fingerprintHash date modelHash containerHash ts uri])

/-- EVM call semantics for `attest`: on revert the pre-state is kept and
nothing is emitted.  Returns (post-state, succeeded?, emitted events). -/
def attestRun (s : AttestationState) (sender blockTimestamp : Nat)
    (fingerprintHash date modelHash containerHash : Nat) (uri : String) :
    AttestationState × Bool × List Event :=
  match attest s sender blockTimestamp fingerprintHash date modelHash
      containerHash uri with
  | Except.ok (s', evs) => (s', true, evs)
  | Except.error _ => (s, false, [])

/-- EVM call semantics for `setPublisher`. -/
def setPublisherRun (s : AttestationState) (sender fingerprintHash publisher : Nat) :
    AttestationState × Bool × List Event :=
  match setPublisher s sender fingerprintHash publisher with
  | Except.ok (s', evs) => (s', true, evs)
  | Except.error _ => (s, false, [])

/-- EVM call semantics for `transferOwnership`. -/
def transferOwnershipRun (s : AttestationState) (sender newOwner : Nat) :
    AttestationState × Bool × List Event :=
  match transferOwnership s sender newOwner with
  | Except.ok (s', evs) => (s', true, evs)
  | Except.error _ => (s, false, [])

/-- A concrete deployed state used by the concrete checks: owner `100`,
publisher `5` registered for fingerprint `1`, no records yet. -/
def demoState : AttestationState :=
  { owner := 100
  , records := fun _ _ => Record.empty
  , publisherFor := fun f => if f = 1 then 5 else 0 }

/-- `demoState` after publisher `5` successfully attested fingerprint `1`,
date `2`, modelHash `7`, containerHash `9` at block timestamp `10`. -/
def demoAttested : AttestationState :=
  (attestRun demoState 5 10 1 2 7 9 ("u")).1

end CraftXChain

namespace LegacyChain

/-- The `Attestation` struct of the legacy `contracts/CraftXAttestation.sol`. -/
structure Attestation where
  hash : Nat
  timestamp : Nat
  buildId : String
  attester : Nat
deriving DecidableEq

/-- The EVM default value of an `Attestation` slot. -/
def Attestation.empty : Attestation :=
  { hash := 0, timestamp := 0, buildId := "", attester := 0 }

/-- The `AttestationStored` event of the legacy contract. -/
structure StoredEvent where
  hash : Nat
  timestamp : Nat
  buildId : String
  attester : Nat
deriving DecidableEq

/-- Storage of the legacy contract: `attestations : bytes32 => Attestation`
and the append-only array `attestationHashes`. -/
structure LegacyState where
  attestations : Nat → Attestation
  attestationHashes : List Nat

/-- State right after deployment: zero mapping, empty array. -/
def legacyInit : LegacyState :=
  { attestations := fun _ => Attestation.empty, attestationHashes := [] }

/-- `storeAttestation`: requires a nonzero `_hash` and a nonempty
`_buildId` (`bytes(_buildId).length > 0`, i.e. the string is nonempty);
then unconditionally overwrites `attestations[_hash]`, pushes `_hash`
onto `attestationHashes`, and emits `AttestationStored`.  There is no
authorization check and no duplicate check. -/
def storeAttestation (s : LegacyState) (sender blockTimestamp : Nat)
    (hsh : Nat) (buildId : String) :
    Except String (LegacyState × List StoredEvent) :=
  if hsh = 0 then Except.error ("Invalid hash")
  else if buildId = "" then Except.error ("Invalid build ID")
  else
    let a : Attestation :=
      { hash := hsh, timestamp := blockTimestamp
      , buildId := buildId, attester := sender }
    Except.ok
      ({ attestations := fun h => if h = hsh then a else s.attestations h
        , attestationHashes := s.attestationHashes ++ [hsh] },
       [{ hash := hsh, timestamp := blockTimestamp
        , buildId := buildId, attester := sender }])

/-- EVM call semantics for `storeAttestation`. -/
def storeRun (s : LegacyState) (sender blockTimestamp : Nat)
    (hsh : Nat) (buildId : String) : LegacyState × Bool × List StoredEvent :=
  match storeAttestation s sender blockTimestamp hsh buildId with
  | Except.ok (s', evs) => (s', true, evs)
  | Except.error _ => (s, false, [])

/-- `getAttestation`: read-only view of `attestations[_hash]`. -/
def getAttestation (s : LegacyState) (hsh : Nat) : Attestation :=
  s.attestations hsh

/-- `getAttestationCount`: `attestationHashes.length`. -/
def getAttestationCount (s : LegacyState) : Nat :=
  s.attestationHashes.length

end LegacyChain

namespace Merkle

/-!
Modelled from the spec: no Merkle batcher or verifier ships under the
repository sources; §4.2 of the design document specifies `MerkleBatcher`
(`build`, `proveInclusion`, `verifyInclusion`).  The definitions below
follow its words: internal nodes hash the concatenation of their two
children (abstracted as an arbitrary combiner `f`); when a level has an
odd number of nodes the final node is promoted unchanged to the next
level (not duplicated); an inclusion proof is the ordered list of sibling
hashes with a left/right position bit; verification walks the proof,
combining a running hash with each sibling on the side its bit indicates,
and succeeds iff the final value equals the claimed root.
-/

variable {α : Type}

/-- Modelled from the spec: one level-building step of `build` — adjacent
pairs are combined; a final odd node is promoted unchanged. -/
def buildLevel (f : α → α → α) : List α → List α
  | [] => []
  | [a] => [a]
  | a :: b :: rest => f a b :: buildLevel f rest

/-- Modelled from the spec: fold `buildLevel` up to the single top hash.
The fuel argument only bounds the recursion depth; `merkleRoot` supplies
`ls.length`, which always suffices since each level is strictly shorter. -/
def merkleRootAux (f : α → α → α) : Nat → List α → Option α
  | _, [] => none
  | _, [a] => some a
  | 0, _ :: _ :: _ => none
  | fuel + 1, a :: b :: rest => merkleRootAux f fuel (buildLevel f (a :: b :: rest))

/-- Modelled from the spec: `build(leaves).root` — the single top hash of
the tree over the ordered leaves, `none` for an empty batch. -/
def merkleRoot (f : α → α → α) (ls : List α) : Option α :=
  merkleRootAux f ls.length ls

/-- Modelled from the spec: `proveInclusion(tree, leafIndex)` — at each
level record the sibling hash with its position bit (`true` = sibling on
the left), skipping levels where the node is a promoted odd node, then
continue from index `i / 2` at the next level. -/
def proveInclusionAux (f : α → α → α) : Nat → List α → Nat → List (Bool × α)
  | _, [], _ => []
  | _, [_], _ => []
  | 0, _ :: _ :: _, _ => []
  | fuel + 1, a :: b :: rest, i =>
    (if i % 2 = 1 then
      match (a :: b :: rest)[i - 1]? with
      | some sib => [(true, sib)]
      | none => []
    else
      match (a :: b :: rest)[i + 1]? with
      | some sib => [(false, sib)]
      | none => []) ++
      proveInclusionAux f fuel (buildLevel f (a :: b :: rest)) (i / 2)

/-- Modelled from the spec: the inclusion proof for the leaf at `i`. -/
def proveInclusion (f : α → α → α) (ls : List α) (i : Nat) : List (Bool × α) :=
  proveInclusionAux f ls.length ls i

/-- Modelled from the spec: one verification step — combine the running
hash with the sibling on the side indicated by the position bit. -/
def stepHash (f : α → α → α) (acc : α) (e : Bool × α) : α :=
  if e.1 then f e.2 acc else f acc e.2

/-- Modelled from the spec: `verifyInclusion(leafHash, proof, claimedRoot)`
— walk the proof recomputing a running hash and succeed iff the final
value equals the claimed root. -/
def verifyInclusion [DecidableEq α] (f : α → α → α) (leaf : α)
    (proof : List (Bool × α)) (claimedRoot : α) : Bool :=
  decide (List.foldl (stepHash f) leaf proof = claimedRoot)

/-- Characterisation of one level step: the node at index `j` of the next
level combines the nodes at `2j` and `2j + 1`, or is the promoted node at
`2j` when no right sibling exists. -/
theorem buildLevel_getElem? (f : α → α → α) :
    ∀ (ls : List α) (j : Nat),
      (buildLevel f ls)[j]? =
        match ls[2 * j]?, ls[2 * j + 1]? with
        | some a, some b => some (f a b)
        | some a, none => some a
        | none, _ => none
  | [], j => by simp [buildLevel]
  | [a], j => by
    cases j with
    | zero => simp [buildLevel]
    | succ k =>
      have e1 : 2 * (k + 1) = 2 * k + 1 + 1 := by ring
      simp [buildLevel, e1]
  | a :: b :: rest, 0 => by simp [buildLevel]
  | a :: b :: rest, j + 1 => by
    have ih := buildLevel_getElem? f rest j
    have e1 : 2 * (j + 1) = 2 * j + 1 + 1 := by ring
    have e2 : 2 * (j + 1) + 1 = 2 * j + 1 + 1 + 1 := by ring
    simp only [buildLevel, e1, e2, List.getElem?_cons_succ]
    exact ih

/-- Every proof produced by `proveInclusionAux` folds the leaf back to
the root computed by `merkleRootAux` with the same fuel. -/
theorem proveInclusionAux_sound (f : α → α → α) :
    ∀ (fuel : Nat) (ls : List α) (i : Nat) (leaf r : α),
      ls[i]? = some leaf → merkleRootAux f fuel ls = some r →
      List.foldl (stepHash f) leaf (proveInclusionAux f fuel ls i) = r := by
  intro fuel
  induction fuel with
  | zero =>
    intro ls i leaf r hl hr
    match ls with
    | [] => simp at hl
    | [a] =>
      match i with
      | 0 =>
        simp at hl
        simp [merkleRootAux] at hr
        subst hl
        subst hr
        simp [proveInclusionAux]
      | k + 1 => simp at hl
    | a :: b :: rest => simp [merkleRootAux] at hr
  | succ fuel ih =>
    intro ls i leaf r hl hr
    match ls with
    | [] => simp at hl
    | [a] =>
      match i with
      | 0 =>
        simp at hl
        simp [merkleRootAux] at hr
        subst hl
        subst hr
        simp [proveInclusionAux]
      | k + 1 => simp at hl
    | a :: b :: rest =>
      have hi : i < (a :: b :: rest).length := by
        rcases List.getElem?_eq_some_iff.mp hl with ⟨h, _⟩
        exact h
      have hbl := buildLevel_getElem? f (a :: b :: rest) (i / 2)
      have hroot : merkleRootAux f fuel (buildLevel f (a :: b :: rest)) = some r := hr
      rw [show proveInclusionAux f (fuel + 1) (a :: b :: rest) i =
            (if i % 2 = 1 then
              match (a :: b :: rest)[i - 1]? with
              | some sib => [(true, sib)]
              | none => []
            else
              match (a :: b :: rest)[i + 1]? with
              | some sib => [(false, sib)]
              | none => []) ++
              proveInclusionAux f fuel (buildLevel f (a :: b :: rest)) (i / 2)
          from rfl]
      rw [List.foldl_append]
      by_cases hodd : i % 2 = 1
      · have e2 : 2 * (i / 2) + 1 = i := by omega
        have e1 : 2 * (i / 2) = i - 1 := by omega
        rw [e2, e1] at hbl
        have h1 : i - 1 < (a :: b :: rest).length := by omega
        have hsib := List.getElem?_eq_getElem h1
        rw [hsib, hl] at hbl
        rw [if_pos hodd, hsib]
        exact ih (buildLevel f (a :: b :: rest)) (i / 2) _ r hbl hroot
      · have e2 : 2 * (i / 2) + 1 = i + 1 := by omega
        have e1 : 2 * (i / 2) = i := by omega
        rw [e2, e1, hl] at hbl
        rw [if_neg hodd]
        by_cases h1 : i + 1 < (a :: b :: rest).length
        · have hsib := List.getElem?_eq_getElem h1
          rw [hsib] at hbl
          rw [hsib]
          exact ih (buildLevel f (a :: b :: rest)) (i / 2) _ r hbl hroot
        · have hn : (a :: b :: rest)[i + 1]? = none :=
            List.getElem?_eq_none (by omega)
          rw [hn] at hbl
          rw [hn]
          exact ih (buildLevel f (a :: b :: rest)) (i / 2) _ r hbl hroot

end Merkle

namespace CraftXChain

/-- C1: once a `(fingerprintHash, date)` key holds a record (the
contract's own `recordExists` test), every later `attest` call for that
key — from any caller, including the registered publisher repeating the
same arguments — is refused, and the whole ledger state, in particular
the stored record, is unchanged. -/
theorem attest_write_once (s : AttestationState) (sender bt fp d mh ch : Nat)
    (uri : String) (h : recordExists s fp d = true) :
    (attestRun s sender bt fp d mh ch uri).2.1 = false ∧
    (attestRun s sender bt fp d mh ch uri).1 = s := by
  unfold attestRun attest
  split_ifs with h1 h2 <;> simp_all

/-- C1 witness: in the concrete attested demo state a repeat call by the
same publisher with the same arguments is refused and changes nothing. -/
theorem attest_write_once_witness :
    recordExists demoAttested 1 2 = true ∧
    ((attestRun demoAttested 5 10 1 2 7 9 ("u")).2.1 = false ∧
      (attestRun demoAttested 5 10 1 2 7 9 ("u")).1 = demoAttested) :=
  ⟨by decide, attest_write_once demoAttested 5 10 1 2 7 9 ("u") (by decide)⟩

/-- C2: an `attest` call from an identity other than the registered
publisher for the fingerprint is refused, and the record for the key
stays the all-zero (`Unset`) record when it was unset. -/
theorem attest_unauthorized_keeps_unset (s : AttestationState)
    (sender bt fp d mh ch : Nat) (uri : String)
    (h : s.publisherFor fp ≠ sender) (h0 : s.records fp d = Record.empty) :
    (attestRun s sender bt fp d mh ch uri).2.1 = false ∧
    (attestRun s sender bt fp d mh ch uri).1.records fp d = Record.empty := by
  unfold attestRun attest
  simp [h, h0]

/-- C2 witness: identity `6` is not the registered publisher `5` of
fingerprint `1` in the demo state, so its attest is refused and key
`(1, 2)` stays all-zero. -/
theorem attest_unauthorized_keeps_unset_witness :
    demoState.publisherFor 1 ≠ 6 ∧ demoState.records 1 2 = Record.empty ∧
    ((attestRun demoState 6 10 1 2 7 9 ("u")).2.1 = false ∧
      (attestRun demoState 6 10 1 2 7 9 ("u")).1.records 1 2 = Record.empty) :=
  ⟨by decide, by decide,
    attest_unauthorized_keeps_unset demoState 6 10 1 2 7 9 ("u")
      (by decide) (by decide)⟩

/-- C3 counterexample: `attest` also requires a nonzero `modelHash`: the
registered publisher calling on an unset key with a zero root is
refused, although the claim as stated says every call by the registered
publisher on an unset key succeeds. -/
theorem attest_zero_root_counterexample :
    demoState.publisherFor 1 = 5 ∧
    recordExists demoState 1 2 = false ∧
    (attestRun demoState 5 10 1 2 0 9 ("u")).2.1 = false := by
  decide

/-- C3 (amended): `attest` fails iff the caller is not the registered
publisher for the fingerprint, or the supplied root (`modelHash`) is
zero, or a record already exists for the key; equivalently, every call
by the registered publisher with a nonzero root on an unset key
succeeds. -/
theorem attest_fails_iff (s : AttestationState) (sender bt fp d mh ch : Nat)
    (uri : String) :
    (attestRun s sender bt fp d mh ch uri).2.1 = false ↔
      (s.publisherFor fp ≠ sender ∨ mh = 0 ∨ recordExists s fp d = true) := by
  unfold attestRun attest
  split_ifs with h1 h2 h3 <;> simp_all

/-- C3 witness: the amended equivalence evaluated at a concrete
successful call. -/
theorem attest_fails_iff_witness :
    (attestRun demoState 5 10 1 2 7 9 ("u")).2.1 = false ↔
      (demoState.publisherFor 1 ≠ 5 ∨ 7 = 0 ∨ recordExists demoState 1 2 = true) :=
  attest_fails_iff demoState 5 10 1 2 7 9 ("u")

/-- C4 (amended): `getRecord` is a pure read of the record slot: on the
freshly deployed state every key reads as the all-zero record, and after
a successful `attest` the key reads back exactly the accepted record
`(modelHash, containerHash, truncated block timestamp, uri)`; the writer
identity is not a field of the stored record. -/
theorem getRecord_spec (s : AttestationState) (sender bt fp d mh ch : Nat)
    (uri : String) (deployer : Nat)
    (h : (attestRun s sender bt fp d mh ch uri).2.1 = true) :
    getRecord (initialState deployer) fp d = Record.empty ∧
    getRecord (attestRun s sender bt fp d mh ch uri).1 fp d =
      { modelHash := mh, containerHash := ch, timestamp := bt % 2 ^ 64
      , uri := uri } := by
  constructor
  · rfl
  · unfold attestRun attest at h ⊢
    split_ifs at h ⊢
    simp_all [getRecord]

/-- C4 witness: the amended description evaluated on the demo state. -/
theorem getRecord_spec_witness :
    getRecord (initialState 100) 1 2 = Record.empty ∧
    getRecord (attestRun demoState 5 10 1 2 7 9 ("u")).1 1 2 =
      { modelHash := 7, containerHash := 9, timestamp := 10 % 2 ^ 64
      , uri := "u" } :=
  getRecord_spec demoState 5 10 1 2 7 9 ("u") 100 (by decide)

/-- C4 counterexample: after a concrete successful `attest` by writer
`5`, `getRecord` returns `(7, 9, 10, "u")`: no field of the returned
record carries the writer identity `5` (numerically or as a string), so
the returned record does not include the identity of the writer,
contrary to the claim as stated. -/
theorem getRecord_lacks_writer_counterexample :
    (attestRun demoState 5 10 1 2 7 9 ("u")).2.1 = true ∧
    getRecord (attestRun demoState 5 10 1 2 7 9 ("u")).1 1 2 =
      { modelHash := 7, containerHash := 9, timestamp := 10, uri := "u" } ∧
    Record.mentions
      (getRecord (attestRun demoState 5 10 1 2 7 9 ("u")).1 1 2) 5 = false := by
  decide

/-- C5 (amended): every successful `attest` emits exactly one `Attested`
event, carrying `(fingerprintHash, date, modelHash, containerHash,
timestamp, uri)`; the writer identity is not among the event fields. -/
theorem attest_event_fields (s : AttestationState) (sender bt fp d mh ch : Nat)
    (uri : String) (h : (attestRun s sender bt fp d mh ch uri).2.1 = true) :
    (attestRun s sender bt fp d mh ch uri).2.2 =
      [Event.Attested fp d mh ch (bt % 2 ^ 64) uri] := by
  unfold attestRun attest at h ⊢
  split_ifs at h ⊢
  simp_all

/-- C5 witness: the emitted event of a concrete successful attest. -/
theorem attest_event_fields_witness :
    (attestRun demoState 5 10 1 2 7 9 ("u")).2.2 =
      [Event.Attested 1 2 7 9 (10 % 2 ^ 64) ("u")] :=
  attest_event_fields demoState 5 10 1 2 7 9 ("u") (by decide)

/-- C5 counterexample: the single event emitted by a concrete successful
attest of writer `5` is `Attested 1 2 7 9 10 "u"`; none of its fields
carries the writer identity `5`, contrary to the claim that the
write-event carries `writerIdentity`. -/
theorem attest_event_lacks_writer_counterexample :
    (attestRun demoState 5 10 1 2 7 9 ("u")).2.1 = true ∧
    (attestRun demoState 5 10 1 2 7 9 ("u")).2.2 =
      [Event.Attested 1 2 7 9 10 ("u")] ∧
    Event.mentions (Event.Attested 1 2 7 9 10 ("u")) 5 = false := by
  decide

/-- C6: the publisher registry is mutated only by owner `setPublisher`
calls: a `setPublisher` call from any non-owner is refused and leaves
`publisherFor` unchanged, and the remaining mutating entry points —
`attest` (whether it succeeds or reverts) and `transferOwnership` —
never modify `publisherFor` (the views `getRecord` and `recordExists`
take no state at all). -/
theorem publisher_registry_owner_only (s : AttestationState)
    (intruder fpk pub sender bt fp d mh ch : Nat) (uri : String)
    (sender2 nOwn : Nat) (h : s.owner ≠ intruder) :
    (setPublisherRun s intruder fpk pub).2.1 = false ∧
    (setPublisherRun s intruder fpk pub).1.publisherFor = s.publisherFor ∧
    (attestRun s sender bt fp d mh ch uri).1.publisherFor = s.publisherFor ∧
    (transferOwnershipRun s sender2 nOwn).1.publisherFor = s.publisherFor := by
  refine ⟨?_, ?_, ?_, ?_⟩
  · unfold setPublisherRun setPublisher
    simp [h]
  · unfold setPublisherRun setPublisher
    simp [h]
  · unfold attestRun attest
    split_ifs <;> rfl
  · unfold transferOwnershipRun transferOwnership
    split_ifs <;> rfl

/-- C6 witness: intruder `6` cannot change the registry of the demo
state; a successful attest and an ownership transfer leave it as is. -/
theorem publisher_registry_owner_only_witness :
    demoState.owner ≠ 6 ∧
    ((setPublisherRun demoState 6 1 7).2.1 = false ∧
      (setPublisherRun demoState 6 1 7).1.publisherFor = demoState.publisherFor ∧
      (attestRun demoState 5 10 1 2 7 9 ("u")).1.publisherFor =
        demoState.publisherFor ∧
      (transferOwnershipRun demoState 100 101).1.publisherFor =
        demoState.publisherFor) :=
  ⟨by decide,
    publisher_registry_owner_only demoState 6 1 7 5 10 1 2 7 9 ("u") 100 101
      (by decide)⟩

/-- C8: frame property of `attest` — whatever the outcome, the publisher
registry and the owner are untouched and every record slot other than
the addressed `(fingerprintHash, date)` is unchanged; a refused call
leaves the whole state unchanged. -/
theorem attest_frame (s : AttestationState) (sender bt fp d mh ch : Nat)
    (uri : String) (fp' d' : Nat) (h : fp' ≠ fp ∨ d' ≠ d) :
    (attestRun s sender bt fp d mh ch uri).1.records fp' d' = s.records fp' d' ∧
    (attestRun s sender bt fp d mh ch uri).1.publisherFor = s.publisherFor ∧
    (attestRun s sender bt fp d mh ch uri).1.owner = s.owner ∧
    ((attestRun s sender bt fp d mh ch uri).2.1 = false →
      (attestRun s sender bt fp d mh ch uri).1 = s) := by
  unfold attestRun attest
  split_ifs with h1 h2 h3
  · exact ⟨rfl, rfl, rfl, fun _ => rfl⟩
  · exact ⟨rfl, rfl, rfl, fun _ => rfl⟩
  · exact ⟨rfl, rfl, rfl, fun _ => rfl⟩
  · refine ⟨?_, rfl, rfl, ?_⟩
    · rcases h with h | h <;> simp [h]
    · intro hfalse
      simp at hfalse

/-- C8 witness: a concrete successful attest leaves slot `(3, 2)`, the
registry and the owner of the demo state unchanged. -/
theorem attest_frame_witness :
    ((3 : Nat) ≠ 1 ∨ (2 : Nat) ≠ 2) ∧
    ((attestRun demoState 5 10 1 2 7 9 ("u")).1.records 3 2 =
        demoState.records 3 2 ∧
      (attestRun demoState 5 10 1 2 7 9 ("u")).1.publisherFor =
        demoState.publisherFor ∧
      (attestRun demoState 5 10 1 2 7 9 ("u")).1.owner = demoState.owner ∧
      ((attestRun demoState 5 10 1 2 7 9 ("u")).2.1 = false →
        (attestRun demoState 5 10 1 2 7 9 ("u")).1 = demoState)) :=
  ⟨by decide, attest_frame demoState 5 10 1 2 7 9 ("u") 3 2 (by decide)⟩

/-- C9: `recordExists` reports a key exactly when the stored timestamp
field is nonzero; a successful `attest` stores the block timestamp
truncated to 64 bits, so afterwards the key reports as existing iff
`blockTimestamp % 2 ^ 64 ≠ 0`; at a block timestamp divisible by
`2 ^ 64` the call still writes a non-empty record (its `modelHash` is
nonzero) which `recordExists` does not detect. -/
theorem recordExists_timestamp_spec (s : AttestationState)
    (sender bt fp d mh ch : Nat) (uri : String) :
    (recordExists s fp d = true ↔ (s.records fp d).timestamp ≠ 0) ∧
    ((attestRun s sender bt fp d mh ch uri).2.1 = true →
      ((attestRun s sender bt fp d mh ch uri).1.records fp d).timestamp =
        bt % 2 ^ 64 ∧
      (bt % 2 ^ 64 ≠ 0 →
        recordExists (attestRun s sender bt fp d mh ch uri).1 fp d = true) ∧
      (bt % 2 ^ 64 = 0 →
        recordExists (attestRun s sender bt fp d mh ch uri).1 fp d = false ∧
        (attestRun s sender bt fp d mh ch uri).1.records fp d ≠ Record.empty)) := by
  constructor
  · simp [recordExists]
  · intro h
    unfold attestRun attest at h ⊢
    split_ifs at h ⊢ with h1 h2 h3
    refine ⟨by simp, fun hne => ?_, fun heq => ⟨?_, by simp [Record.empty, h2]⟩⟩
    · simp only [ne_eq] at hne ⊢
      simp [recordExists]
      omega
    · simp [recordExists]
      omega

/-- C9 witness: an attest at block timestamp `0` (which is `0` modulo
`2 ^ 64`) stores a record the contract itself does not report as
existing. -/
theorem recordExists_timestamp_spec_witness :
    (recordExists demoState 1 2 = true ↔
      (demoState.records 1 2).timestamp ≠ 0) ∧
    ((attestRun demoState 5 0 1 2 7 9 ("u")).2.1 = true →
      ((attestRun demoState 5 0 1 2 7 9 ("u")).1.records 1 2).timestamp =
        0 % 2 ^ 64 ∧
      (0 % 2 ^ 64 ≠ 0 →
        recordExists (attestRun demoState 5 0 1 2 7 9 ("u")).1 1 2 = true) ∧
      (0 % 2 ^ 64 = 0 →
        recordExists (attestRun demoState 5 0 1 2 7 9 ("u")).1 1 2 = false ∧
        (attestRun demoState 5 0 1 2 7 9 ("u")).1.records 1 2 ≠ Record.empty)) :=
  recordExists_timestamp_spec demoState 5 0 1 2 7 9 ("u")

end CraftXChain

namespace Merkle

/-- C7: proof soundness — for every leaf (at index `i`) of an ordered
leaf list whose Merkle tree has root `r`, verifying the inclusion proof
produced for that leaf against `r` succeeds, for any combiner `f`. -/
theorem verifyInclusion_sound {α : Type} [DecidableEq α] (f : α → α → α)
    (ls : List α) (i : Nat) (r : α) (hi : i < ls.length)
    (hr : merkleRoot f ls = some r) :
    verifyInclusion f (ls.get ⟨i, hi⟩) (proveInclusion f ls i) r = true := by
  have hl : ls[i]? = some (ls.get ⟨i, hi⟩) := by
    simp [List.getElem?_eq_getElem hi]
  have hfold := proveInclusionAux_sound f ls.length ls i (ls.get ⟨i, hi⟩) r hl hr
  unfold verifyInclusion proveInclusion
  simp only [decide_eq_true_eq]
  simpa using hfold

/-- C7 witness: the five-leaf batch `[3, 1, 4, 1, 5]` (odd level sizes,
so the promotion rule is exercised twice) with combiner
`(a, b) ↦ 2a + 3b + 1` has root `130`, and the proof produced for the
last leaf verifies against it. -/
theorem verifyInclusion_sound_witness :
    4 < ([3, 1, 4, 1, 5] : List Nat).length ∧
    merkleRoot (fun a b => 2 * a + 3 * b + 1) ([3, 1, 4, 1, 5] : List Nat) =
      some 130 ∧
    verifyInclusion (fun a b => 2 * a + 3 * b + 1)
      (([3, 1, 4, 1, 5] : List Nat).get ⟨4, by decide⟩)
      (proveInclusion (fun a b => 2 * a + 3 * b + 1)
        ([3, 1, 4, 1, 5] : List Nat) 4)
      130 = true :=
  ⟨by decide, by decide,
    verifyInclusion_sound (fun a b => 2 * a + 3 * b + 1)
      ([3, 1, 4, 1, 5] : List Nat) 4 130 (by decide) (by decide)⟩

end Merkle

namespace LegacyChain

/-- C10: the legacy `storeAttestation` fails exactly on a zero hash or an
empty build id; every other call succeeds for any caller (there is no
authorization check), overwrites `attestations[_hash]` with the new
record, and appends the hash to `attestationHashes` even when it was
already attested — so, as the concrete double store of hash `7` shows,
`getAttestationCount` counts duplicates and can exceed the number of
distinct stored hashes. -/
theorem storeAttestation_spec (s : LegacyState) (sender bt hsh : Nat)
    (b : String) :
    ((storeRun s sender bt hsh b).2.1 = false ↔ (hsh = 0 ∨ b = "")) ∧
    ((storeRun s sender bt hsh b).2.1 = true →
      (storeRun s sender bt hsh b).1.attestations hsh =
        { hash := hsh, timestamp := bt, buildId := b, attester := sender } ∧
      (storeRun s sender bt hsh b).1.attestationHashes =
        s.attestationHashes ++ [hsh] ∧
      getAttestationCount (storeRun s sender bt hsh b).1 =
        getAttestationCount s + 1) ∧
    (getAttestationCount
        (storeRun (storeRun legacyInit 5 10 7 ("b1")).1 6 11 7 ("b2")).1 = 2 ∧
      ((storeRun (storeRun legacyInit 5 10 7 ("b1")).1 6 11 7
          ("b2")).1.attestationHashes.dedup.length = 1) ∧
      (storeRun (storeRun legacyInit 5 10 7 ("b1")).1 6 11 7
          ("b2")).1.attestations 7 =
        { hash := 7, timestamp := 11, buildId := "b2", attester := 6 }) := by
  refine ⟨?_, ?_, by decide⟩
  · unfold storeRun storeAttestation
    split_ifs with h1 h2 <;> simp_all
  · intro h
    unfold storeRun storeAttestation at h ⊢
    split_ifs at h ⊢ with h1 h2
    exact ⟨by simp, by simp, by simp [getAttestationCount]⟩

/-- C10 witness: the characterisation evaluated at a concrete successful
store on the freshly deployed legacy state. -/
theorem storeAttestation_spec_witness :
    ((storeRun legacyInit 5 10 7 ("b1")).2.1 = false ↔
      ((7 : Nat) = 0 ∨ ("b1" : String) = "")) ∧
    ((storeRun legacyInit 5 10 7 ("b1")).2.1 = true →
      (storeRun legacyInit 5 10 7 ("b1")).1.attestations 7 =
        { hash := 7, timestamp := 10, buildId := "b1", attester := 5 } ∧
      (storeRun legacyInit 5 10 7 ("b1")).1.attestationHashes =
        legacyInit.attestationHashes ++ [7] ∧
      getAttestationCount (storeRun legacyInit 5 10 7 ("b1")).1 =
        getAttestationCount legacyInit + 1) ∧
    (getAttestationCount
        (storeRun (storeRun legacyInit 5 10 7 ("b1")).1 6 11 7 ("b2")).1 = 2 ∧
      ((storeRun (storeRun legacyInit 5 10 7 ("b1")).1 6 11 7
          ("b2")).1.attestationHashes.dedup.length = 1) ∧
      (storeRun (storeRun legacyInit 5 10 7 ("b1")).1 6 11 7
          ("b2")).1.attestations 7 =
        { hash := 7, timestamp := 11, buildId := "b2", attester := 6 }) :=
  storeAttestation_spec legacyInit 5 10 7 ("b1")

end LegacyChain
